import Mathlib

/-!
# Verification of the case-simulator engine (`src/app.py`)

A shallow embedding of the `DataStore` engine of the repository: the catalog
(rarities and items), settings, inventory, stats and history, the validator
`_validate_rarity_ranges`, the two-stage draw (`_roll_rarity`,
`_pick_item_by_rarity`), each mutating operation, and the startup loader
`_load_or_create_defaults`.

Modelling conventions:
* Python floats are modelled as rationals (`ℚ`): every operation the source
  performs on them here (comparison, addition, user-supplied constants) is
  exact on the values the claims concern.
* Python dicts used as keyed maps (`inventory`, `stats.by_rarity`,
  `stats.by_item`) are association lists with Python's assignment semantics
  (replace in place when the key exists, append otherwise).
* The random draws of `open_case` are parameterised by the sequence of
  sampled numbers: draw number `k` receives the pair `rng k` (the uniform
  roll and the uniform weighted-pick point).
* `time.time()` and `uuid.uuid4()` are parameterised as explicit arguments
  (`now`, and the fresh-id strings).
* `save()` writes the whole state to disk and is a no-op on the in-memory
  aggregate, which is what the claims are about; it is therefore not
  modelled in the operations.
-/

namespace CaseSim

/-- `Rarity` dataclass of `src/app.py` (lines 13-19). -/
structure Rarity where
  id : String
  name : String
  min_roll : ℚ
  max_roll : ℚ
  color : String := "#888888"
deriving DecidableEq, Repr

/-- `Item` dataclass of `src/app.py` (lines 22-29). -/
structure Item where
  id : String
  name : String
  rarity_id : String
  weight : ℚ
  image_path : String := ""
  description : String := ""
deriving DecidableEq, Repr

/-- The `settings` sub-dict of `DataStore.data` (lines 46-50). -/
structure Settings where
  roll_min : ℚ
  roll_max : ℚ
  open_price : ℚ
deriving DecidableEq, Repr

/-- The `stats` sub-dict of `DataStore.data` (lines 40-45). -/
structure Stats where
  total_opened : ℕ
  total_spent : ℚ
  by_rarity : List (String × ℕ)
  by_item : List (String × ℕ)
deriving DecidableEq, Repr

/-- One element of the result list built in `open_case` (lines 154-158). -/
structure DrawResult where
  roll : ℚ
  rarity : Rarity
  item : Item
deriving DecidableEq, Repr

/-- The `payload` of a history entry: each action stores a different shape
(the rarity dict, the item dict, the open-case batch summary, ...). -/
inductive Payload where
  | rarity (r : Rarity)
  | item (i : Item)
  | openCase (times : ℕ) (results : List DrawResult) (count_results : ℕ)
  | deletedRarity (rarity_id : String)
  | deletedItem (item_id : String)
  | inventory (item_id : String) (delta : ℤ)
  | settings (s : Settings)
  | empty
deriving DecidableEq, Repr

/-- A history entry as built by `_append_history` (lines 90-95). -/
structure HistEntry where
  id : String
  timestamp : ℤ
  action : String
  payload : Payload
deriving DecidableEq, Repr

/-- The whole `DataStore.data` aggregate (lines 35-51). -/
structure State where
  rarities : List Rarity
  items : List Item
  inventory : List (String × ℤ)
  history : List HistEntry
  stats : Stats
  settings : Settings
deriving DecidableEq, Repr

/-- The `{ok, message?, state?, results?}` response dict (§6 of the spec).
The post-call aggregate is returned alongside by every modelled operation,
whether or not the Python response includes it. -/
structure OpResult where
  ok : Bool
  message : Option String := none
  results : Option (List DrawResult) := none
deriving DecidableEq, Repr

/-! ## Python-dict helpers (assignment, lookup with default, `pop`) -/

/-- `m.get(k, d)` on a Python dict modelled as an association list. -/
def lookupD {α : Type} (m : List (String × α)) (k : String) (d : α) : α :=
  match m.find? (fun p => p.1 = k) with
  | some p => p.2
  | none => d

/-- `m[k] = v` on a Python dict: replace the entry in place when the key is
present, append it otherwise. -/
def setKey {α : Type} (m : List (String × α)) (k : String) (v : α) :
    List (String × α) :=
  if m.any (fun p => p.1 = k) then
    m.map (fun p => if p.1 = k then (k, v) else p)
  else
    m ++ [(k, v)]

/-- `m.pop(k, None)` on a Python dict. -/
def eraseKey {α : Type} (m : List (String × α)) (k : String) :
    List (String × α) :=
  m.filter (fun p => p.1 ≠ k)

/-- Increment-with-default-0, the `d[k] = d.get(k, 0) + 1` pattern of
`open_case` (lines 152-153). -/
def bump (m : List (String × ℕ)) (k : String) : List (String × ℕ) :=
  setKey m k (lookupD m k 0 + 1)

/-! ## Validator (`_validate_rarity_ranges`, lines 117-129) -/

/-- Python's lexicographic order on the `(min_roll, max_roll, name)` tuples
sorted by the validator. -/
def tripleLe (a b : ℚ × ℚ × String) : Bool :=
  if a.1 < b.1 then true
  else if b.1 < a.1 then false
  else if a.2.1 < b.2.1 then true
  else if b.2.1 < a.2.1 then false
  else decide (a.2.2 < b.2.2) || decide (a.2.2 = b.2.2)

/-- Insert an element in front of the first list element it is `le` to;
helper of `pySorted`. -/
def insertStable {α : Type} (le : α → α → Bool) (a : α) : List α → List α
  | [] => [a]
  | b :: rest => if le a b then a :: b :: rest else b :: insertStable le a rest

/-- Stable insertion sort. Python's `sorted` is also a stable sort, and two
stable sorts agree on every list whose comparison is a total preorder (as
the tuple order used by the validator is), so this models `sorted` exactly. -/
def pySorted {α : Type} (le : α → α → Bool) : List α → List α
  | [] => []
  | x :: rest => insertStable le x (pySorted le rest)

/-- The adjacent-pair overlap scan of lines 126-128: return the names of the
first sorted pair with `ranges[i][0] < ranges[i-1][1]`. -/
def overlapScan : List (ℚ × ℚ × String) → Option (String × String)
  | a :: b :: rest =>
      if b.1 < a.2.1 then some (a.2.2, b.2.2) else overlapScan (b :: rest)
  | _ => none

/-- `_validate_rarity_ranges` (lines 117-129): returns the `(valid, message)`
pair. -/
def validateRarityRanges (st : State) : Bool × String :=
  if st.settings.roll_min ≥ st.settings.roll_max then
    (false, "roll_min должен быть меньше roll_max")
  else
    match st.rarities.find? (fun r => decide (r.min_roll > r.max_roll)) with
    | some r => (false, "У редкости " ++ r.name ++ " min_roll > max_roll")
    | none =>
      let ranges :=
        pySorted tripleLe (st.rarities.map (fun r => (r.min_roll, r.max_roll, r.name)))
      match overlapScan ranges with
      | some ab => (false, "Диапазоны " ++ ab.1 ++ " и " ++ ab.2 ++ " пересекаются")
      | none => (true, "ok")

/-! ## Draw engine (`_roll_rarity`, `_pick_item_by_rarity`, `open_case` body) -/

/-- The `for r in self.data["rarities"]` loop of `_roll_rarity` (lines 99-102). -/
def rollRarityLoop (roll : ℚ) : List Rarity → Option Rarity
  | [] => none
  | r :: rest =>
      if r.min_roll ≤ roll ∧ roll ≤ r.max_roll then some r
      else rollRarityLoop roll rest

/-- `_roll_rarity` (lines 98-102): first rarity in stored order whose closed
interval contains the roll. -/
def rollRarity (st : State) (roll : ℚ) : Option Rarity :=
  rollRarityLoop roll st.rarities

/-- The accumulating walk of `_pick_item_by_rarity` (lines 110-114):
`current += weight; if point <= current: return item`. -/
def pickLoop (point : ℚ) : ℚ → List Item → Option Item
  | _, [] => none
  | current, i :: rest =>
      if point ≤ current + i.weight then some i
      else pickLoop point (current + i.weight) rest

/-- The drawable candidates of a rarity (line 105): its items with positive
weight. -/
def pickCandidates (items : List Item) (rid : String) : List Item :=
  items.filter (fun i => i.rarity_id = rid ∧ i.weight > 0)

/-- `_pick_item_by_rarity` (lines 104-115), parameterised by the sampled
`point`; the `return candidates[-1]` fallback becomes `getLast?`. -/
def pickItemByRarity (items : List Item) (rid : String) (point : ℚ) :
    Option Item :=
  let candidates := pickCandidates items rid
  if candidates.isEmpty then none
  else
    match pickLoop point 0 candidates with
    | some i => some i
    | none => candidates.getLast?

/-- `round(roll, 3)` of line 155. (Python rounds the IEEE double half to
even; on the non-boundary values the claims concern this agrees with
rounding the rational.) -/
def round3 (q : ℚ) : ℚ := (round (q * 1000) : ℤ) / 1000

/-- One iteration of the `open_case` draw loop (lines 140-158): the rarity
band lookup, the weighted item pick, and on success the inventory and stats
increments. Returns the optional draw result and the successor state. -/
def drawOnce (st : State) (roll point : ℚ) : Option DrawResult × State :=
  match rollRarity st roll with
  | none => (none, st)
  | some rarity =>
    match pickItemByRarity st.items rarity.id point with
    | none => (none, st)
    | some item =>
      let inv := setKey st.inventory item.id (lookupD st.inventory item.id 0 + 1)
      let stats : Stats :=
        { total_opened := st.stats.total_opened + 1
          total_spent := st.stats.total_spent + st.settings.open_price
          by_rarity := bump st.stats.by_rarity rarity.id
          by_item := bump st.stats.by_item item.id }
      (some ⟨round3 roll, rarity, item⟩, { st with inventory := inv, stats := stats })

/-- The whole `for _ in range(times)` loop of `open_case`, consuming one
`(roll, point)` pair per attempted draw; results kept in draw order. -/
def runDraws : State → List (ℚ × ℚ) → List DrawResult × State
  | st, [] => ([], st)
  | st, rp :: rest =>
    match drawOnce st rp.1 rp.2 with
    | (none, st') => runDraws st' rest
    | (some r, st') =>
      let tail := runDraws st' rest
      (r :: tail.1, tail.2)

/-! ## History (`_append_history`, lines 89-96) -/

/-- `_append_history`: prepend a fresh entry, then truncate to 500. -/
def appendHistory (st : State) (hid : String) (now : ℤ) (action : String)
    (payload : Payload) : State :=
  { st with history := (⟨hid, now, action, payload⟩ :: st.history).take 500 }

/-! ## Operations of `DataStore` -/

/-- `max(1, min(100, int(times)))` of `open_case` line 132. -/
def clampTimes (t : ℤ) : ℕ := (max 1 (min 100 t)).toNat

/-- `open_case` (lines 131-162). `rng k` supplies the `(roll, point)`
pair sampled for draw number `k`. -/
def open_case (st : State) (times : ℤ) (rng : ℕ → ℚ × ℚ) (hid : String)
    (now : ℤ) : OpResult × State :=
  let t := clampTimes times
  let v := validateRarityRanges st
  if v.1 = false then ({ ok := false, message := some v.2 }, st)
  else
    let drawn := runDraws st ((List.range t).map rng)
    let st' := appendHistory drawn.2 hid now "open_case"
      (.openCase t (drawn.1.take 10) drawn.1.length)
    ({ ok := true, results := some drawn.1 }, st')

/-- The fields of the `rarity` argument dict of `add_rarity` (lines 164-171). -/
structure RarityPayload where
  name : String
  min_roll : ℚ
  max_roll : ℚ
  color : Option String := none
deriving DecidableEq, Repr

/-- The `entry` dict built by `add_rarity` (lines 165-171). -/
def rarityOfPayload (p : RarityPayload) (fresh : String) : Rarity :=
  { id := fresh, name := p.name, min_roll := p.min_roll,
    max_roll := p.max_roll, color := p.color.getD "#888888" }

/-- `add_rarity` (lines 164-179): append the new rarity, validate, and pop
it back off on failure. -/
def add_rarity (st : State) (p : RarityPayload) (fresh hid : String)
    (now : ℤ) : OpResult × State :=
  let entry := rarityOfPayload p fresh
  let st1 := { st with rarities := st.rarities ++ [entry] }
  let v := validateRarityRanges st1
  if v.1 = false then
    ({ ok := false, message := some v.2 },
     { st1 with rarities := st1.rarities.dropLast })
  else
    ({ ok := true }, appendHistory st1 hid now "add_rarity" (.rarity entry))

/-- The optional fields of the `payload` dict of `update_rarity`. -/
structure RarityUpdate where
  name : Option String := none
  min_roll : Option ℚ := none
  max_roll : Option ℚ := none
  color : Option String := none
deriving DecidableEq, Repr

/-- The `for rarity in self.data["rarities"]` loop of `update_rarity`
(lines 182-187): overwrite the fields of the first rarity with the given id,
returning the new list and the updated rarity. -/
def updateRarityLoop (rid : String) (p : RarityUpdate) :
    List Rarity → Option (List Rarity × Rarity)
  | [] => none
  | r :: rest =>
      if r.id = rid then
        let r' : Rarity :=
          { id := r.id, name := p.name.getD r.name,
            min_roll := p.min_roll.getD r.min_roll,
            max_roll := p.max_roll.getD r.max_roll,
            color := p.color.getD r.color }
        some (r' :: rest, r')
      else
        match updateRarityLoop rid p rest with
        | none => none
        | some lr => some (r :: lr.1, lr.2)

/-- `update_rarity` (lines 181-194). The fields are overwritten in place
before validating; a failing validation returns without undoing them. -/
def update_rarity (st : State) (rid : String) (p : RarityUpdate)
    (hid : String) (now : ℤ) : OpResult × State :=
  match updateRarityLoop rid p st.rarities with
  | none => ({ ok := false, message := some "Редкость не найдена" }, st)
  | some lr =>
    let st1 := { st with rarities := lr.1 }
    let v := validateRarityRanges st1
    if v.1 = false then ({ ok := false, message := some v.2 }, st1)
    else
      ({ ok := true }, appendHistory st1 hid now "update_rarity" (.rarity lr.2))

/-- `delete_rarity` (lines 196-205). -/
def delete_rarity (st : State) (rid : String) (hid : String) (now : ℤ) :
    OpResult × State :=
  if st.items.any (fun i => i.rarity_id = rid) then
    ({ ok := false,
       message := some "Нельзя удалить редкость, пока есть связанные предметы" },
     st)
  else
    let newRarities := st.rarities.filter (fun r => r.id ≠ rid)
    if newRarities.length = st.rarities.length then
      ({ ok := false, message := some "Редкость не найдена" }, st)
    else
      ({ ok := true },
       appendHistory { st with rarities := newRarities } hid now
         "delete_rarity" (.deletedRarity rid))

/-- The fields of the `payload` dict of `add_item` (lines 207-218). -/
structure ItemPayload where
  name : String
  rarity_id : String
  weight : Option ℚ := none
  image_path : Option String := none
  description : Option String := none
deriving DecidableEq, Repr

/-- The `item` dict built by `add_item` (lines 211-218). -/
def itemOfPayload (p : ItemPayload) (fresh : String) : Item :=
  { id := fresh, name := p.name, rarity_id := p.rarity_id,
    weight := p.weight.getD 1, image_path := p.image_path.getD "",
    description := p.description.getD "" }

/-- `add_item` (lines 207-222): the referenced rarity must exist; the weight
defaults to 1 and is stored as given. -/
def add_item (st : State) (p : ItemPayload) (fresh hid : String) (now : ℤ) :
    OpResult × State :=
  if st.rarities.any (fun r => r.id = p.rarity_id) = false then
    ({ ok := false, message := some "Указанная редкость не существует" }, st)
  else
    let item := itemOfPayload p fresh
    ({ ok := true },
     appendHistory { st with items := st.items ++ [item] } hid now
       "add_item" (.item item))

/-- The optional fields of the `payload` dict of `update_item`. -/
structure ItemUpdate where
  name : Option String := none
  rarity_id : Option String := none
  weight : Option ℚ := none
  image_path : Option String := none
  description : Option String := none
deriving DecidableEq, Repr

/-- Outcome of the `update_item` search loop. -/
inductive UpdItemRes where
  | notFound
  | badRarity
  | updated (items : List Item) (it : Item)
deriving DecidableEq, Repr

/-- The `for item in self.data["items"]` loop of `update_item`
(lines 226-237): at the first item with the given id, reject an unknown
`rarity_id` before touching any field, otherwise overwrite the fields. -/
def updateItemLoop (hasRarity : String → Bool) (iid : String) (p : ItemUpdate) :
    List Item → UpdItemRes
  | [] => .notFound
  | i :: rest =>
      if i.id = iid then
        match p.rarity_id with
        | some rid =>
          if hasRarity rid = false then .badRarity
          else
            let i' : Item :=
              { id := i.id, name := p.name.getD i.name, rarity_id := rid,
                weight := p.weight.getD i.weight,
                image_path := p.image_path.getD i.image_path,
                description := p.description.getD i.description }
            .updated (i' :: rest) i'
        | none =>
          let i' : Item :=
            { id := i.id, name := p.name.getD i.name, rarity_id := i.rarity_id,
              weight := p.weight.getD i.weight,
              image_path := p.image_path.getD i.image_path,
              description := p.description.getD i.description }
          .updated (i' :: rest) i'
      else
        match updateItemLoop hasRarity iid p rest with
        | .notFound => .notFound
        | .badRarity => .badRarity
        | .updated l it => .updated (i :: l) it

/-- `update_item` (lines 224-238). -/
def update_item (st : State) (iid : String) (p : ItemUpdate) (hid : String)
    (now : ℤ) : OpResult × State :=
  match updateItemLoop (fun rid => st.rarities.any (fun r => r.id = rid)) iid p
      st.items with
  | .notFound => ({ ok := false, message := some "Предмет не найден" }, st)
  | .badRarity =>
      ({ ok := false, message := some "Указанная редкость не существует" }, st)
  | .updated l it =>
      ({ ok := true },
       appendHistory { st with items := l } hid now "update_item" (.item it))

/-- `delete_item` (lines 240-248): filter the item out, then drop its
inventory entry. -/
def delete_item (st : State) (iid : String) (hid : String) (now : ℤ) :
    OpResult × State :=
  let newItems := st.items.filter (fun i => i.id ≠ iid)
  if newItems.length = st.items.length then
    ({ ok := false, message := some "Предмет не найден" }, st)
  else
    ({ ok := true },
     appendHistory
       { st with items := newItems, inventory := eraseKey st.inventory iid }
       hid now "delete_item" (.deletedItem iid))

/-- `adjust_inventory` (lines 250-265). -/
def adjust_inventory (st : State) (iid : String) (delta : ℤ) (hid : String)
    (now : ℤ) : OpResult × State :=
  if st.items.any (fun i => i.id = iid) = false then
    ({ ok := false, message := some "Предмет не найден" }, st)
  else
    let cur := lookupD st.inventory iid 0
    let newVal := cur + delta
    if newVal < 0 then
      ({ ok := false, message := some "Недостаточно предметов в инвентаре" }, st)
    else
      let inv :=
        if newVal = 0 then eraseKey st.inventory iid
        else setKey st.inventory iid newVal
      let action := if delta < 0 then "consume_item" else "add_inventory"
      ({ ok := true },
       appendHistory { st with inventory := inv } hid now action
         (.inventory iid delta))

/-- The optional fields of the `payload` dict of `update_settings`. -/
structure SettingsUpdate where
  roll_min : Option ℚ := none
  roll_max : Option ℚ := none
  open_price : Option ℚ := none
deriving DecidableEq, Repr

/-- The `for key in (...)` overwrite loop of `update_settings`
(lines 269-271). -/
def settingsOfUpdate (s : Settings) (p : SettingsUpdate) : Settings :=
  { roll_min := p.roll_min.getD s.roll_min,
    roll_max := p.roll_max.getD s.roll_max,
    open_price := p.open_price.getD s.open_price }

/-- `update_settings` (lines 267-277). The settings dict is overwritten in
place before validating; a failing validation returns without undoing it. -/
def update_settings (st : State) (p : SettingsUpdate) (hid : String)
    (now : ℤ) : OpResult × State :=
  let s' := settingsOfUpdate st.settings p
  let st1 := { st with settings := s' }
  let v := validateRarityRanges st1
  if v.1 = false then ({ ok := false, message := some v.2 }, st1)
  else
    ({ ok := true }, appendHistory st1 hid now "update_settings" (.settings s'))

/-- `clear_history` (lines 279-282): empty the history; no entry is appended. -/
def clear_history (st : State) : OpResult × State :=
  ({ ok := true }, { st with history := [] })

/-- `reset_stats` (lines 284-293). -/
def reset_stats (st : State) (hid : String) (now : ℤ) : OpResult × State :=
  ({ ok := true },
   appendHistory { st with stats := ⟨0, 0, [], []⟩ } hid now "reset_stats"
     .empty)

/-! ## All mutating operations as a single step relation -/

/-- One request to the store, with the sampled randomness attached. -/
inductive Op where
  | openCase (times : ℤ) (rng : ℕ → ℚ × ℚ)
  | addRarity (p : RarityPayload)
  | updateRarity (rid : String) (p : RarityUpdate)
  | deleteRarity (rid : String)
  | addItem (p : ItemPayload)
  | updateItem (iid : String) (p : ItemUpdate)
  | deleteItem (iid : String)
  | adjustInventory (iid : String) (delta : ℤ)
  | updateSettings (p : SettingsUpdate)
  | clearHistory
  | resetStats

/-- Whether the request is the history-clearing one. -/
def Op.isClearHistory : Op → Bool
  | .clearHistory => true
  | _ => false

/-- Dispatch one request against the store, supplying the fresh uuid
strings and the timestamp the operation consumes. -/
def runOp (op : Op) (fresh hid : String) (now : ℤ) (st : State) :
    OpResult × State :=
  match op with
  | .openCase times rng => open_case st times rng hid now
  | .addRarity p => add_rarity st p fresh hid now
  | .updateRarity rid p => update_rarity st rid p hid now
  | .deleteRarity rid => delete_rarity st rid hid now
  | .addItem p => add_item st p fresh hid now
  | .updateItem iid p => update_item st iid p hid now
  | .deleteItem iid => delete_item st iid hid now
  | .adjustInventory iid delta => adjust_inventory st iid delta hid now
  | .updateSettings p => update_settings st p hid now
  | .clearHistory => clear_history st
  | .resetStats => reset_stats st hid now

/-! ## Startup (`_load_or_create_defaults`, lines 54-77)

The loader works on raw parsed JSON, before anything has the typed shapes
above, so it is modelled on a JSON value type. `Json.obj` stands for a dict
produced by `json.load`, whose keys are unique. -/

/-- A parsed JSON document. -/
inductive Json where
  | null
  | bool (b : Bool)
  | num (q : ℚ)
  | str (s : String)
  | arr (xs : List Json)
  | obj (kvs : List (String × Json))

/-- The Python exceptions the loader can let escape (it catches only
`json.JSONDecodeError` and `OSError`). -/
inductive PyErr where
  | typeError
  | valueError
  | indexError
  | keyError
deriving DecidableEq, Repr

/-- What reading `self.path` yields: no file, a file whose read or parse
raises (`OSError` / `json.JSONDecodeError`, both caught), or a parsed
document. -/
inductive FileContent where
  | missing
  | unparsable
  | parsed (j : Json)

/-- The six top-level keys of `DataStore.data` as raw JSON, the shape the
loader manipulates. Keys other than these six may be added by
`dict.update` but nothing in startup reads them, so they are not tracked. -/
structure RawData where
  rarities : Json
  items : Json
  inventory : Json
  history : Json
  stats : Json
  settings : Json

/-- The initial `self.data` dict (lines 35-51) as raw JSON. -/
def initialRaw : RawData where
  rarities := .arr []
  items := .arr []
  inventory := .obj []
  history := .arr []
  stats := .obj [("total_opened", .num 0), ("total_spent", .num 0),
                 ("by_rarity", .obj []), ("by_item", .obj [])]
  settings := .obj [("roll_min", .num 0), ("roll_max", .num 100),
                    ("open_price", .num 1)]

/-- `self.data[key] = v` for a string key, on the tracked fields. -/
def setField (raw : RawData) (key : String) (v : Json) : RawData :=
  if key = "rarities" then { raw with rarities := v }
  else if key = "items" then { raw with items := v }
  else if key = "inventory" then { raw with inventory := v }
  else if key = "history" then { raw with history := v }
  else if key = "stats" then { raw with stats := v }
  else if key = "settings" then { raw with settings := v }
  else raw

/-- One element of a key/value sequence passed to `dict.update`: Python
accepts any length-2 iterable, hashes its first element as the key and
takes the second as the value. `none` is a pair whose key is hashable but
not a string, which can never name one of the tracked fields. -/
def pairOf : Json → Except PyErr (Option (String × Json))
  | .arr [k, v] =>
    match k with
    | .str s => .ok (some (s, v))
    | .num _ => .ok none
    | .bool _ => .ok none
    | .null => .ok none
    | .arr _ => .error .typeError
    | .obj _ => .error .typeError
  | .arr _ => .error .valueError
  | .str s =>
    match s.data with
    | [c1, c2] => .ok (some (String.mk [c1], .str (String.mk [c2])))
    | _ => .error .valueError
  | .obj kvs =>
    match kvs with
    | [p, q] => .ok (some (p.1, .str q.1))
    | _ => .error .valueError
  | .num _ => .error .typeError
  | .bool _ => .error .typeError
  | .null => .error .typeError

/-- Fold a key/value sequence into the dict, stopping at the first bad
element, as `dict.update` does. -/
def updatePairs (raw : RawData) : List Json → Except PyErr RawData
  | [] => .ok raw
  | e :: rest =>
    match pairOf e with
    | .error err => .error err
    | .ok none => updatePairs raw rest
    | .ok (some kv) => updatePairs (setField raw kv.1 kv.2) rest

/-- `self.data.update(loaded)` (line 59). A dict merges; a list is read as
a key/value sequence; an empty string iterates to nothing; any other
document raises `TypeError` or `ValueError`, which line 60 does not catch. -/
def dictUpdate (raw : RawData) : Json → Except PyErr RawData
  | .obj kvs => .ok (kvs.foldl (fun r kv => setField r kv.1 kv.2) raw)
  | .arr xs => updatePairs raw xs
  | .str s => if s.isEmpty then .ok raw else .error .valueError
  | .null => .error .typeError
  | .bool _ => .error .typeError
  | .num _ => .error .typeError

/-- Python truthiness of a JSON value, the `if not self.data["rarities"]`
tests of lines 62 and 69. -/
def pyTruthy : Json → Bool
  | .null => false
  | .bool b => b
  | .num q => decide (q ≠ 0)
  | .str s => !s.isEmpty
  | .arr xs => !xs.isEmpty
  | .obj kvs => !kvs.isEmpty

/-- Python subscripting `j[k]` for a literal non-negative integer `k`. -/
def jsonIndexNat (j : Json) (k : ℕ) : Except PyErr Json :=
  match j with
  | .arr xs =>
    match xs.get? k with
    | some v => .ok v
    | none => .error .indexError
  | .str s =>
    match s.data.get? k with
    | some c => .ok (.str (String.mk [c]))
    | none => .error .indexError
  | .obj _ => .error .keyError
  | _ => .error .typeError

/-- Python subscripting `j[key]` for a string key. -/
def jsonGetKey (j : Json) (key : String) : Except PyErr Json :=
  match j with
  | .obj kvs =>
    match kvs.find? (fun p => p.1 = key) with
    | some p => .ok p.2
    | none => .error .keyError
  | _ => .error .typeError

/-- `r[k]["id"]`, the accesses of lines 72-75. -/
def rarityIdAt (r : Json) (k : ℕ) : Except PyErr Json := do
  let x ← jsonIndexNat r k
  jsonGetKey x "id"

/-- `items[k]["rarity_id"]`, used to check the seeded catalog pairing. -/
def itemRarityRefAt (itemsJ : Json) (k : ℕ) : Except PyErr Json := do
  let x ← jsonIndexNat itemsJ k
  jsonGetKey x "rarity_id"

/-- One default rarity dict of lines 63-68, as `asdict` produces it. -/
def defaultRarityJson (rid name : String) (lo hi : ℚ) (color : String) : Json :=
  .obj [("id", .str rid), ("name", .str name), ("min_roll", .num lo),
        ("max_roll", .num hi), ("color", .str color)]

/-- The default rarity list of lines 63-68; `ids 0`..`ids 3` are the
generated uuids. -/
def defaultRaritiesJson (ids : ℕ → String) : Json :=
  .arr [defaultRarityJson (ids 0) "Обычная" 0 60 "#b0b0b0",
        defaultRarityJson (ids 1) "Редкая" 60 85 "#4f8cff",
        defaultRarityJson (ids 2) "Эпическая" 85 97 "#bb6eff",
        defaultRarityJson (ids 3) "Легендарная" 97 100 "#ff9f1a"]

/-- One default item dict of lines 71-76. -/
def defaultItemJson (iid name : String) (rid : Json) (w : ℚ)
    (descr : String) : Json :=
  .obj [("id", .str iid), ("name", .str name), ("rarity_id", rid),
        ("weight", .num w), ("image_path", .str ""),
        ("description", .str descr)]

/-- The default item list of lines 70-76; `ids 4`..`ids 7` are the
generated uuids and `rid0`..`rid3` the `r[k]["id"]` values. -/
def defaultItemsJson (ids : ℕ → String) (rid0 rid1 rid2 rid3 : Json) : Json :=
  .arr [defaultItemJson (ids 4) "Старый нож" rid0 10 "Простой предмет",
        defaultItemJson (ids 5) "Сияющий пистолет" rid1 6 "Редкая находка",
        defaultItemJson (ids 6) "Кристальный меч" rid2 3 "Очень ценный",
        defaultItemJson (ids 7) "Драконья корона" rid3 1 "Почти не выпадает"]

/-- The seeding phase of lines 62-76: fill an empty (falsy) rarity list
with the defaults, then fill an empty (falsy) item list with four items
whose `rarity_id`s are read back from the first four rarities. -/
def seedDefaults (ids : ℕ → String) (raw : RawData) : Except PyErr RawData := do
  let raw1 :=
    if pyTruthy raw.rarities then raw
    else { raw with rarities := defaultRaritiesJson ids }
  if pyTruthy raw1.items then
    return raw1
  else
    let r := raw1.rarities
    let rid0 ← rarityIdAt r 0
    let rid1 ← rarityIdAt r 1
    let rid2 ← rarityIdAt r 2
    let rid3 ← rarityIdAt r 3
    return { raw1 with items := defaultItemsJson ids rid0 rid1 rid2 rid3 }

/-- `_load_or_create_defaults` (lines 54-77): merge a readable parsed file
into the defaults (uncaught `TypeError`/`ValueError`/`IndexError`/
`KeyError` escape as `.error`), treat a missing or unreadable or
unparsable file as leaving the defaults, then seed the catalog. -/
def loadOrCreate (content : FileContent) (ids : ℕ → String) :
    Except PyErr RawData :=
  match content with
  | .missing => seedDefaults ids initialRaw
  | .unparsable => seedDefaults ids initialRaw
  | .parsed j => do
    let raw ← dictUpdate initialRaw j
    seedDefaults ids raw

/-- The fully seeded default aggregate: what startup produces when nothing
(or nothing catalog-shaped) was loaded. -/
def seededDefaultRaw (ids : ℕ → String) : RawData :=
  { initialRaw with
      rarities := defaultRaritiesJson ids,
      items := defaultItemsJson ids (.str (ids 0)) (.str (ids 1))
        (.str (ids 2)) (.str (ids 3)) }

/-! ## Concrete states used to exercise the operations -/

/-- A small catalog rarity covering rolls 0-60. -/
def exRarity : Rarity := { id := "r1", name := "Common", min_roll := 0, max_roll := 60, color := "#b0b0b0" }

/-- A second rarity covering rolls 60-100, referenced by no item. -/
def exRarity2 : Rarity := { id := "r2", name := "Rare", min_roll := 60, max_roll := 100, color := "#4f8cff" }

/-- A drawable item of `exRarity`. -/
def exItem : Item := { id := "i1", name := "Knife", rarity_id := "r1", weight := 1 }

/-- A valid one-rarity aggregate with two knives in the inventory. -/
def exState : State :=
  { rarities := [exRarity], items := [exItem], inventory := [("i1", 2)],
    history := [], stats := ⟨0, 0, [], []⟩, settings := ⟨0, 100, 1⟩ }

/-- `exState` with a second, unreferenced rarity. -/
def exState2 : State := { exState with rarities := [exRarity, exRarity2] }

/-- `exState` with one history entry already recorded. -/
def exStateH : State :=
  { exState with history := [⟨"h0", 0, "add_item", .empty⟩] }

/-! ## Helper lemmas on the dict operations -/

theorem lookupD_setKey {α : Type} (m : List (String × α)) (k : String)
    (v d : α) : lookupD (setKey m k v) k d = v := by
  unfold setKey
  by_cases h : m.any (fun p => p.1 = k)
  · simp only [h, if_true]
    induction m with
    | nil => simp at h
    | cons a m ih =>
      by_cases ha : a.1 = k
      · simp [lookupD, List.find?, ha]
      · simp only [List.any_cons, Bool.or_eq_true, decide_eq_true_eq] at h
        rcases h with h | h
        · exact absurd h ha
        · simpa [lookupD, List.find?, ha] using ih (by simpa using h)
  · simp only [h, if_false]
    induction m with
    | nil => simp [lookupD, List.find?]
    | cons a m ih =>
      simp only [List.any_cons, Bool.or_eq_true, decide_eq_true_eq, not_or] at h
      simpa [lookupD, List.find?, h.1] using ih (by simpa using h.2)

theorem lookupD_bump (m : List (String × ℕ)) (k : String) :
    lookupD (bump m k) k 0 = lookupD m k 0 + 1 :=
  lookupD_setKey m k _ 0

theorem eraseKey_any_false {α : Type} (m : List (String × α)) (k : String) :
    ((eraseKey m k).any (fun p => p.1 = k)) = false := by
  rw [Bool.eq_false_iff]
  intro h
  rcases List.any_eq_true.mp h with ⟨p, hp, hk⟩
  rcases List.mem_filter.mp hp with ⟨_, hne⟩
  simp only [decide_eq_true_eq] at hk hne
  exact hne hk

/-! ## Helper lemmas on the draw engine -/

theorem pickLoop_mem (point : ℚ) :
    ∀ (cur : ℚ) (l : List Item) (i : Item), pickLoop point cur l = some i → i ∈ l := by
  intro cur l
  induction l generalizing cur with
  | nil => intro i h; exact absurd h (by simp [pickLoop])
  | cons a l ih =>
    intro i h
    unfold pickLoop at h
    by_cases hc : point ≤ cur + a.weight
    · simp only [hc, if_true, Option.some.injEq] at h
      exact h ▸ List.mem_cons_self a l
    · simp only [hc, if_false] at h
      exact List.mem_cons_of_mem a (ih _ i h)

theorem pickItemByRarity_mem (items : List Item) (rid : String) (point : ℚ)
    (i : Item) (h : pickItemByRarity items rid point = some i) :
    i ∈ pickCandidates items rid := by
  unfold pickItemByRarity at h
  by_cases he : (pickCandidates items rid).isEmpty
  · simp [he] at h
  · simp only [he, Bool.false_eq_true, if_false] at h
    cases hp : pickLoop point 0 (pickCandidates items rid) with
    | some j =>
      rw [hp] at h
      exact (Option.some.injEq _ _ ▸ h) ▸ pickLoop_mem point 0 _ j hp
    | none =>
      rw [hp] at h
      exact List.mem_of_mem_getLast? h

theorem drawOnce_none_eq (st : State) (roll point : ℚ)
    (h : (drawOnce st roll point).1 = none) : (drawOnce st roll point).2 = st := by
  unfold drawOnce at h ⊢
  cases h1 : rollRarity st roll with
  | none => simp [h1]
  | some rarity =>
    cases h2 : pickItemByRarity st.items rarity.id point with
    | none => simp [h1, h2]
    | some item => simp [h1, h2] at h

theorem drawOnce_untouched (st : State) (roll point : ℚ) :
    ((drawOnce st roll point).2.rarities = st.rarities
      ∧ (drawOnce st roll point).2.items = st.items
      ∧ (drawOnce st roll point).2.history = st.history
      ∧ (drawOnce st roll point).2.settings = st.settings) := by
  unfold drawOnce
  cases h1 : rollRarity st roll with
  | none => simp [h1]
  | some rarity =>
    cases h2 : pickItemByRarity st.items rarity.id point with
    | none => simp [h1, h2]
    | some item => simp [h1, h2]

theorem drawOnce_some_eq (st : State) (roll point : ℚ) (rarity : Rarity)
    (item : Item) (h1 : rollRarity st roll = some rarity)
    (h2 : pickItemByRarity st.items rarity.id point = some item) :
    drawOnce st roll point
      = (some ⟨round3 roll, rarity, item⟩,
         { st with
             inventory := setKey st.inventory item.id
               (lookupD st.inventory item.id 0 + 1),
             stats :=
               { total_opened := st.stats.total_opened + 1,
                 total_spent := st.stats.total_spent + st.settings.open_price,
                 by_rarity := bump st.stats.by_rarity rarity.id,
                 by_item := bump st.stats.by_item item.id } }) := by
  unfold drawOnce
  simp only [h1, h2]

theorem runDraws_history (l : List (ℚ × ℚ)) :
    ∀ st : State, ((runDraws st l).2).history = st.history := by
  induction l with
  | nil => intro st; rfl
  | cons rp rest ih =>
    intro st
    unfold runDraws
    cases h : drawOnce st rp.1 rp.2 with
    | mk res st' =>
      have hh : st'.history = st.history := by
        have := (drawOnce_untouched st rp.1 rp.2).2.2.1
        rw [h] at this
        exact this
      cases res with
      | none => simpa [ih st'] using hh
      | some r => simpa [ih st'] using hh

theorem runDraws_length_le (l : List (ℚ × ℚ)) :
    ∀ st : State, ((runDraws st l).1).length ≤ l.length := by
  induction l with
  | nil => intro st; simp [runDraws]
  | cons rp rest ih =>
    intro st
    unfold runDraws
    cases h : drawOnce st rp.1 rp.2 with
    | mk res st' =>
      cases res with
      | none => exact Nat.le_succ_of_le (ih st')
      | some r => simpa using Nat.succ_le_succ (ih st')

/-! ## Helper lemmas on the history -/

theorem appendHistory_history (st : State) (hid : String) (now : ℤ)
    (action : String) (payload : Payload) :
    (appendHistory st hid now action payload).history
      = (⟨hid, now, action, payload⟩ :: st.history).take 500 := rfl

theorem appendHistory_length_le (st : State) (hid : String) (now : ℤ)
    (action : String) (payload : Payload) :
    (appendHistory st hid now action payload).history.length ≤ 500 := by
  simp [appendHistory]

theorem appendHistory_head (st : State) (hid : String) (now : ℤ)
    (action : String) (payload : Payload) :
    (appendHistory st hid now action payload).history.head?
      = some ⟨hid, now, action, payload⟩ := by
  rw [appendHistory_history, show (500 : ℕ) = 499 + 1 from rfl,
    List.take_succ_cons]
  rfl

/-! ## Helper lemmas on list surgery -/

theorem filter_ne_length_lt (l : List Rarity) (rid : String)
    (h : l.any (fun r => r.id = rid) = true) :
    (l.filter (fun r => r.id ≠ rid)).length < l.length := by
  induction l with
  | nil => simp at h
  | cons a l ih =>
    by_cases ha : a.id = rid
    · have hle : (l.filter (fun r => r.id ≠ rid)).length ≤ l.length :=
        l.length_filter_le _
      simpa [List.filter_cons, ha] using Nat.lt_succ_of_le hle
    · simp only [List.any_cons, Bool.or_eq_true, decide_eq_true_eq] at h
      rcases h with h | h
      · exact absurd h ha
      · simpa [List.filter_cons, ha] using Nat.succ_lt_succ (ih h)

/-! ## Branch equations for the operations -/

theorem add_rarity_fail_eq (st : State) (p : RarityPayload)
    (fresh hid : String) (now : ℤ)
    (hv : (validateRarityRanges
        { st with rarities := st.rarities ++ [rarityOfPayload p fresh] }).1
      = false) :
    add_rarity st p fresh hid now
      = ({ ok := false,
           message := some (validateRarityRanges
             { st with
                 rarities := st.rarities ++ [rarityOfPayload p fresh] }).2 },
         { st with
             rarities := (st.rarities ++ [rarityOfPayload p fresh]).dropLast }) := by
  unfold add_rarity
  rw [if_pos hv]

theorem add_rarity_ok_eq (st : State) (p : RarityPayload)
    (fresh hid : String) (now : ℤ)
    (hv : (validateRarityRanges
        { st with rarities := st.rarities ++ [rarityOfPayload p fresh] }).1
      = true) :
    add_rarity st p fresh hid now
      = ({ ok := true },
         appendHistory
           { st with rarities := st.rarities ++ [rarityOfPayload p fresh] }
           hid now "add_rarity" (.rarity (rarityOfPayload p fresh))) := by
  unfold add_rarity
  rw [if_neg (by simp [hv])]

theorem update_rarity_notfound_eq (st : State) (rid : String)
    (p : RarityUpdate) (hid : String) (now : ℤ)
    (hm : updateRarityLoop rid p st.rarities = none) :
    update_rarity st rid p hid now
      = ({ ok := false, message := some "Редкость не найдена" }, st) := by
  unfold update_rarity
  simp only [hm]

theorem update_rarity_fail_eq (st : State) (rid : String) (p : RarityUpdate)
    (hid : String) (now : ℤ) (lr : List Rarity × Rarity)
    (hm : updateRarityLoop rid p st.rarities = some lr)
    (hv : (validateRarityRanges { st with rarities := lr.1 }).1 = false) :
    update_rarity st rid p hid now
      = ({ ok := false,
           message :=
             some (validateRarityRanges { st with rarities := lr.1 }).2 },
         { st with rarities := lr.1 }) := by
  unfold update_rarity
  simp only [hm]
  rw [if_pos hv]

theorem update_rarity_ok_eq (st : State) (rid : String) (p : RarityUpdate)
    (hid : String) (now : ℤ) (lr : List Rarity × Rarity)
    (hm : updateRarityLoop rid p st.rarities = some lr)
    (hv : (validateRarityRanges { st with rarities := lr.1 }).1 = true) :
    update_rarity st rid p hid now
      = ({ ok := true },
         appendHistory { st with rarities := lr.1 } hid now "update_rarity"
           (.rarity lr.2)) := by
  unfold update_rarity
  simp only [hm]
  rw [if_neg (by simp [hv])]

theorem add_item_notfound_eq (st : State) (p : ItemPayload)
    (fresh hid : String) (now : ℤ)
    (hr : st.rarities.any (fun r => r.id = p.rarity_id) = false) :
    add_item st p fresh hid now
      = ({ ok := false, message := some "Указанная редкость не существует" },
         st) := by
  unfold add_item
  rw [if_pos hr]

theorem add_item_ok_eq (st : State) (p : ItemPayload) (fresh hid : String)
    (now : ℤ) (hr : st.rarities.any (fun r => r.id = p.rarity_id) = true) :
    add_item st p fresh hid now
      = ({ ok := true },
         appendHistory { st with items := st.items ++ [itemOfPayload p fresh] }
           hid now "add_item" (.item (itemOfPayload p fresh))) := by
  unfold add_item
  rw [if_neg (by simp [hr])]

theorem update_item_notfound_eq (st : State) (iid : String) (p : ItemUpdate)
    (hid : String) (now : ℤ)
    (hm : updateItemLoop (fun rid => st.rarities.any (fun r => r.id = rid))
        iid p st.items = .notFound) :
    update_item st iid p hid now
      = ({ ok := false, message := some "Предмет не найден" }, st) := by
  unfold update_item
  simp only [hm]

theorem update_item_badrarity_eq (st : State) (iid : String) (p : ItemUpdate)
    (hid : String) (now : ℤ)
    (hm : updateItemLoop (fun rid => st.rarities.any (fun r => r.id = rid))
        iid p st.items = .badRarity) :
    update_item st iid p hid now
      = ({ ok := false, message := some "Указанная редкость не существует" },
         st) := by
  unfold update_item
  simp only [hm]

theorem update_item_ok_eq (st : State) (iid : String) (p : ItemUpdate)
    (hid : String) (now : ℤ) (l : List Item) (it : Item)
    (hm : updateItemLoop (fun rid => st.rarities.any (fun r => r.id = rid))
        iid p st.items = .updated l it) :
    update_item st iid p hid now
      = ({ ok := true },
         appendHistory { st with items := l } hid now "update_item"
           (.item it)) := by
  unfold update_item
  simp only [hm]

theorem delete_item_notfound_eq (st : State) (iid hid : String) (now : ℤ)
    (hl : (st.items.filter (fun i => i.id ≠ iid)).length = st.items.length) :
    delete_item st iid hid now
      = ({ ok := false, message := some "Предмет не найден" }, st) := by
  unfold delete_item
  rw [if_pos hl]

theorem delete_item_ok_eq (st : State) (iid hid : String) (now : ℤ)
    (hl : (st.items.filter (fun i => i.id ≠ iid)).length ≠ st.items.length) :
    delete_item st iid hid now
      = ({ ok := true },
         appendHistory
           { st with
               items := st.items.filter (fun i => i.id ≠ iid),
               inventory := eraseKey st.inventory iid }
           hid now "delete_item" (.deletedItem iid)) := by
  unfold delete_item
  rw [if_neg hl]

theorem update_settings_fail_eq (st : State) (p : SettingsUpdate)
    (hid : String) (now : ℤ)
    (hv : (validateRarityRanges
        { st with settings := settingsOfUpdate st.settings p }).1 = false) :
    update_settings st p hid now
      = ({ ok := false,
           message := some (validateRarityRanges
             { st with settings := settingsOfUpdate st.settings p }).2 },
         { st with settings := settingsOfUpdate st.settings p }) := by
  unfold update_settings
  rw [if_pos hv]

theorem update_settings_ok_eq (st : State) (p : SettingsUpdate)
    (hid : String) (now : ℤ)
    (hv : (validateRarityRanges
        { st with settings := settingsOfUpdate st.settings p }).1 = true) :
    update_settings st p hid now
      = ({ ok := true },
         appendHistory { st with settings := settingsOfUpdate st.settings p }
           hid now "update_settings"
           (.settings (settingsOfUpdate st.settings p))) := by
  unfold update_settings
  rw [if_neg (by simp [hv])]

/-! ## Claim theorems -/

/-- C6: for every roll value, the rarity lookup returns the first rarity in
stored catalog order whose closed interval `[min_roll, max_roll]` contains
the roll, both endpoints inclusive; if none contains it, the draw yields no
result (unchanged state) rather than an error. -/
theorem roll_rarity_first_match_spec (st : State) (roll point : ℚ) :
    rollRarity st roll
        = st.rarities.find?
            (fun r => decide (r.min_roll ≤ roll ∧ roll ≤ r.max_roll))
      ∧ (∀ r, rollRarity st roll = some r →
          r.min_roll ≤ roll ∧ roll ≤ r.max_roll)
      ∧ (rollRarity st roll = none → drawOnce st roll point = (none, st)) := by
  have hfind : ∀ l : List Rarity,
      rollRarityLoop roll l
        = l.find? (fun r => decide (r.min_roll ≤ roll ∧ roll ≤ r.max_roll)) := by
    intro l
    induction l with
    | nil => rfl
    | cons r rest ih =>
      by_cases hc : r.min_roll ≤ roll ∧ roll ≤ r.max_roll
      · simp [rollRarityLoop, List.find?, hc]
      · simp [rollRarityLoop, List.find?, hc, ih]
  refine ⟨hfind st.rarities, ?_, ?_⟩
  · intro r hr
    rw [show rollRarity st roll = rollRarityLoop roll st.rarities from rfl,
      hfind st.rarities] at hr
    simpa using List.find?_some hr
  · intro h
    unfold drawOnce
    rw [h]

/-- Witness for `roll_rarity_first_match_spec`: in the concrete catalog a
boundary roll of 60 matches the first rarity inclusively, and a roll of 200
matches nothing so the draw leaves the state unchanged. -/
theorem roll_rarity_first_match_spec_witness :
    (exRarity.min_roll ≤ 60 ∧ (60 : ℚ) ≤ exRarity.max_roll)
      ∧ drawOnce exState 200 1 = (none, exState) :=
  ⟨(roll_rarity_first_match_spec exState 60 1).2.1 exRarity (by decide),
   (roll_rarity_first_match_spec exState 200 1).2.2 (by decide)⟩

/-- C2: every successful individual draw bumps the drawn item's inventory
count by exactly 1, `total_opened` by 1, `total_spent` by `open_price`,
`by_rarity` of the drawn rarity by 1 and `by_item` of the drawn item by 1;
a draw yielding no result changes nothing. -/
theorem draw_success_increments_spec (st : State) (roll point : ℚ) :
    ((drawOnce st roll point).1 = none → (drawOnce st roll point).2 = st)
      ∧ (∀ res, (drawOnce st roll point).1 = some res →
          lookupD (drawOnce st roll point).2.inventory res.item.id 0
              = lookupD st.inventory res.item.id 0 + 1
            ∧ (drawOnce st roll point).2.stats.total_opened
              = st.stats.total_opened + 1
            ∧ (drawOnce st roll point).2.stats.total_spent
              = st.stats.total_spent + st.settings.open_price
            ∧ lookupD (drawOnce st roll point).2.stats.by_rarity res.rarity.id 0
              = lookupD st.stats.by_rarity res.rarity.id 0 + 1
            ∧ lookupD (drawOnce st roll point).2.stats.by_item res.item.id 0
              = lookupD st.stats.by_item res.item.id 0 + 1) := by
  refine ⟨drawOnce_none_eq st roll point, ?_⟩
  intro res h
  cases h1 : rollRarity st roll with
  | none =>
    unfold drawOnce at h
    rw [h1] at h
    simp at h
  | some rarity =>
    cases h2 : pickItemByRarity st.items rarity.id point with
    | none =>
      unfold drawOnce at h
      simp only [h1, h2] at h
      exact Option.noConfusion h
    | some item =>
      have hd := drawOnce_some_eq st roll point rarity item h1 h2
      rw [hd] at h
      simp only [Option.some.injEq] at h
      subst h
      rw [hd]
      exact ⟨lookupD_setKey _ _ _ _, rfl, rfl, lookupD_bump _ _, lookupD_bump _ _⟩

/-- Witness for `draw_success_increments_spec`: a concrete successful draw
(roll 30 lands in the 0-60 band, point 1 picks the knife) takes the knife's
inventory count from 2 to 3. -/
theorem draw_success_increments_spec_witness :
    lookupD (drawOnce exState 30 1).2.inventory "i1" 0
      = lookupD exState.inventory "i1" 0 + 1 := by
  have hr : rollRarity exState 30 = some exRarity := by decide
  have hp : pickItemByRarity exState.items exRarity.id 1 = some exItem := by
    simp [pickItemByRarity, pickCandidates, pickLoop, exState, exRarity, exItem]
  have h1 : (drawOnce exState 30 1).1 = some ⟨round3 30, exRarity, exItem⟩ := by
    rw [drawOnce_some_eq exState 30 1 exRarity exItem hr hp]
  simpa [exItem] using
    ((draw_success_increments_spec exState 30 1).2 ⟨round3 30, exRarity, exItem⟩ h1).1

/-- `adjust_inventory` on a known item with an overdraw: the insufficient
branch of lines 256-257. -/
theorem adjust_inventory_fail_eq (st : State) (iid : String) (delta : ℤ)
    (hid : String) (now : ℤ)
    (hmem : st.items.any (fun i => i.id = iid) = true)
    (hneg : lookupD st.inventory iid 0 + delta < 0) :
    adjust_inventory st iid delta hid now
      = ({ ok := false, message := some "Недостаточно предметов в инвентаре" },
         st) := by
  unfold adjust_inventory
  rw [if_neg (by simp [hmem]), if_pos hneg]

/-- `adjust_inventory` on a known item without overdraw: the success branch
of lines 258-265. -/
theorem adjust_inventory_ok_eq (st : State) (iid : String) (delta : ℤ)
    (hid : String) (now : ℤ)
    (hmem : st.items.any (fun i => i.id = iid) = true)
    (hpos : ¬ (lookupD st.inventory iid 0 + delta < 0)) :
    adjust_inventory st iid delta hid now
      = ({ ok := true },
         appendHistory
           { st with
               inventory :=
                 if lookupD st.inventory iid 0 + delta = 0 then
                   eraseKey st.inventory iid
                 else setKey st.inventory iid (lookupD st.inventory iid 0 + delta) }
           hid now (if delta < 0 then "consume_item" else "add_inventory")
           (.inventory iid delta)) := by
  unfold adjust_inventory
  rw [if_neg (by simp [hmem]), if_neg hpos]

/-- C7: for an item id present in the catalog, `adjust_inventory` fails with
the insufficient-quantity message iff the current quantity plus the delta is
negative; a failure leaves the whole aggregate unchanged; a success landing
exactly on 0 removes the inventory entry instead of storing 0. -/
theorem adjust_inventory_spec (st : State) (iid : String) (delta : ℤ)
    (hid : String) (now : ℤ)
    (hmem : st.items.any (fun i => i.id = iid) = true) :
    ((adjust_inventory st iid delta hid now).1.ok = false
        ↔ lookupD st.inventory iid 0 + delta < 0)
      ∧ (lookupD st.inventory iid 0 + delta < 0 →
          (adjust_inventory st iid delta hid now).1.message
              = some "Недостаточно предметов в инвентаре"
            ∧ (adjust_inventory st iid delta hid now).2 = st)
      ∧ (¬ (lookupD st.inventory iid 0 + delta < 0) →
          (adjust_inventory st iid delta hid now).1.ok = true
            ∧ (lookupD st.inventory iid 0 + delta = 0 →
                ((adjust_inventory st iid delta hid now).2.inventory.any
                  (fun p => p.1 = iid)) = false)
            ∧ (lookupD st.inventory iid 0 + delta ≠ 0 →
                (adjust_inventory st iid delta hid now).2.inventory
                  = setKey st.inventory iid (lookupD st.inventory iid 0 + delta))) := by
  by_cases hneg : lookupD st.inventory iid 0 + delta < 0
  · rw [adjust_inventory_fail_eq st iid delta hid now hmem hneg]
    refine ⟨by simp [hneg], fun _ => ⟨rfl, rfl⟩, fun hc => absurd hneg hc⟩
  · rw [adjust_inventory_ok_eq st iid delta hid now hmem hneg]
    refine ⟨by simp [hneg], fun hc => absurd hc hneg, fun _ => ⟨rfl, ?_, ?_⟩⟩
    · intro h0
      simp only [appendHistory, if_pos h0]
      exact eraseKey_any_false st.inventory iid
    · intro h0
      simp only [appendHistory, if_neg h0]

/-- Witness for `adjust_inventory_spec`: spending both knives (delta -2 on a
quantity of 2) succeeds and removes the entry; the mapping no longer has the
key at all. -/
theorem adjust_inventory_spec_witness :
    ((adjust_inventory exState "i1" (-2) "h1" 0).1.ok = true)
      ∧ ((adjust_inventory exState "i1" (-2) "h1" 0).2.inventory.any
          (fun p => p.1 = "i1")) = false :=
  ⟨((adjust_inventory_spec exState "i1" (-2) "h1" 0 (by decide)).2.2
      (by decide)).1,
   ((adjust_inventory_spec exState "i1" (-2) "h1" 0 (by decide)).2.2
      (by decide)).2.1 (by decide)⟩

/-- `delete_rarity` when some item still references the rarity: the
referential-integrity branch of lines 197-198. -/
theorem delete_rarity_ref_eq (st : State) (rid hid : String) (now : ℤ)
    (href : st.items.any (fun i => i.rarity_id = rid) = true) :
    delete_rarity st rid hid now
      = ({ ok := false,
           message :=
             some "Нельзя удалить редкость, пока есть связанные предметы" },
         st) := by
  unfold delete_rarity
  rw [if_pos href]

/-- `delete_rarity` on a present, unreferenced rarity: the success branch of
lines 199-205. -/
theorem delete_rarity_ok_eq (st : State) (rid hid : String) (now : ℤ)
    (hmem : st.rarities.any (fun r => r.id = rid) = true)
    (href : st.items.any (fun i => i.rarity_id = rid) = false) :
    delete_rarity st rid hid now
      = ({ ok := true },
         appendHistory
           { st with rarities := st.rarities.filter (fun r => r.id ≠ rid) }
           hid now "delete_rarity" (.deletedRarity rid)) := by
  unfold delete_rarity
  rw [if_neg (by simp [href]),
    if_neg (Nat.ne_of_lt (filter_ne_length_lt st.rarities rid hmem))]

/-- C8: for a rarity id present in the catalog, `delete_rarity` fails with
the referential-integrity message iff at least one item references the
rarity (leaving the aggregate unchanged); otherwise it removes exactly the
rarities with that id and appends exactly one history entry. -/
theorem delete_rarity_spec (st : State) (rid hid : String) (now : ℤ)
    (hmem : st.rarities.any (fun r => r.id = rid) = true) :
    ((delete_rarity st rid hid now).1.ok = false
        ↔ st.items.any (fun i => i.rarity_id = rid) = true)
      ∧ (st.items.any (fun i => i.rarity_id = rid) = true →
          (delete_rarity st rid hid now).1.message
              = some "Нельзя удалить редкость, пока есть связанные предметы"
            ∧ (delete_rarity st rid hid now).2 = st)
      ∧ (st.items.any (fun i => i.rarity_id = rid) = false →
          (delete_rarity st rid hid now).1.ok = true
            ∧ (delete_rarity st rid hid now).2.rarities
              = st.rarities.filter (fun r => r.id ≠ rid)
            ∧ (delete_rarity st rid hid now).2.history
              = (⟨hid, now, "delete_rarity", .deletedRarity rid⟩
                  :: st.history).take 500
            ∧ (delete_rarity st rid hid now).2.items = st.items
            ∧ (delete_rarity st rid hid now).2.inventory = st.inventory) := by
  by_cases href : st.items.any (fun i => i.rarity_id = rid) = true
  · rw [delete_rarity_ref_eq st rid hid now href]
    exact ⟨by simp [href], fun _ => ⟨rfl, rfl⟩,
      fun hc => absurd href (by simp [hc])⟩
  · have href' : st.items.any (fun i => i.rarity_id = rid) = false := by
      simpa using href
    rw [delete_rarity_ok_eq st rid hid now hmem href']
    exact ⟨by simp [href'], fun hc => absurd hc href,
      fun _ => ⟨rfl, rfl, rfl, rfl, rfl⟩⟩

/-- Witness for `delete_rarity_spec`: deleting the unreferenced second
rarity of the concrete catalog succeeds and filters exactly it out. -/
theorem delete_rarity_spec_witness :
    (delete_rarity exState2 "r2" "h1" 0).1.ok = true
      ∧ (delete_rarity exState2 "r2" "h1" 0).2.rarities
          = exState2.rarities.filter (fun r => r.id ≠ "r2") :=
  ⟨((delete_rarity_spec exState2 "r2" "h1" 0 (by decide)).2.2 (by decide)).1,
   ((delete_rarity_spec exState2 "r2" "h1" 0 (by decide)).2.2 (by decide)).2.1⟩

/-- `open_case` when validation fails: the early return of lines 134-135. -/
theorem open_case_fail_eq (st : State) (times : ℤ) (rng : ℕ → ℚ × ℚ)
    (hid : String) (now : ℤ) (hv : (validateRarityRanges st).1 = false) :
    open_case st times rng hid now
      = ({ ok := false, message := some (validateRarityRanges st).2 }, st) := by
  unfold open_case
  rw [if_pos hv]

/-- `open_case` when validation passes: the draw loop, history entry and
success response of lines 137-162. -/
theorem open_case_ok_eq (st : State) (times : ℤ) (rng : ℕ → ℚ × ℚ)
    (hid : String) (now : ℤ) (hv : (validateRarityRanges st).1 = true) :
    open_case st times rng hid now
      = ({ ok := true,
           results := some (runDraws st ((List.range (clampTimes times)).map rng)).1 },
         appendHistory (runDraws st ((List.range (clampTimes times)).map rng)).2
           hid now "open_case"
           (.openCase (clampTimes times)
             ((runDraws st ((List.range (clampTimes times)).map rng)).1.take 10)
             (runDraws st ((List.range (clampTimes times)).map rng)).1.length)) := by
  unfold open_case
  rw [if_neg (by simp [hv])]

/-- C10: `open_case` clamps the requested count into `[1, 100]` (below 1
becomes 1, above 100 becomes 100, in-range values are kept), behaves exactly
as if called with the clamped count, is rejected only by validation — never
because of the count — and attempts exactly the clamped number of draws, so
at most that many results are produced. -/
theorem open_case_clamp_spec (st : State) (times : ℤ) (rng : ℕ → ℚ × ℚ)
    (hid : String) (now : ℤ) :
    (times < 1 → clampTimes times = 1)
      ∧ (100 < times → clampTimes times = 100)
      ∧ (1 ≤ times → times ≤ 100 → (clampTimes times : ℤ) = times)
      ∧ open_case st times rng hid now
          = open_case st (clampTimes times : ℤ) rng hid now
      ∧ ((open_case st times rng hid now).1.ok = true
          ↔ (validateRarityRanges st).1 = true)
      ∧ (∀ rs, (open_case st times rng hid now).1.results = some rs →
          rs.length ≤ clampTimes times) := by
  have hcl : clampTimes ((clampTimes times : ℕ) : ℤ) = clampTimes times := by
    unfold clampTimes
    omega
  refine ⟨?_, ?_, ?_, ?_, ?_, ?_⟩
  · intro h; unfold clampTimes; omega
  · intro h; unfold clampTimes; omega
  · intro h1 h2; unfold clampTimes; omega
  · unfold open_case
    rw [hcl]
  · cases hv : (validateRarityRanges st).1 with
    | false => rw [open_case_fail_eq st times rng hid now hv]
    | true => rw [open_case_ok_eq st times rng hid now hv]
  · intro rs h
    cases hv : (validateRarityRanges st).1 with
    | false =>
      rw [open_case_fail_eq st times rng hid now hv] at h
      exact absurd h (by simp)
    | true =>
      rw [open_case_ok_eq st times rng hid now hv] at h
      simp only [Option.some.injEq] at h
      subst h
      simpa using runDraws_length_le ((List.range (clampTimes times)).map rng) st

/-- Witness for `open_case_clamp_spec`: the concrete out-of-range counts -5
and 200 are clamped to 1 and 100. -/
theorem open_case_clamp_spec_witness :
    clampTimes (-5) = 1 ∧ clampTimes 200 = 100 :=
  ⟨(open_case_clamp_spec exState (-5) (fun _ => (0, 0)) "h1" 0).1 (by decide),
   (open_case_clamp_spec exState 200 (fun _ => (0, 0)) "h1" 0).2.1 (by decide)⟩

/-- Each store request either fails leaving the history untouched, is the
history-clearing request (emptying it), or succeeds prepending exactly one
entry before the 500-cap truncation. -/
theorem runOp_history_shape (op : Op) (fresh hid : String) (now : ℤ)
    (st : State) :
    ((runOp op fresh hid now st).1.ok = false
        ∧ ((runOp op fresh hid now st).2).history = st.history)
      ∨ ((runOp op fresh hid now st).1.ok = true ∧ op.isClearHistory = true
          ∧ ((runOp op fresh hid now st).2).history = [])
      ∨ ((runOp op fresh hid now st).1.ok = true ∧ op.isClearHistory = false
          ∧ ∃ e, ((runOp op fresh hid now st).2).history
              = (e :: st.history).take 500) := by
  cases op with
  | openCase times rng =>
    simp only [runOp]
    cases hv : (validateRarityRanges st).1 with
    | false =>
      rw [open_case_fail_eq st times rng hid now hv]
      exact Or.inl ⟨rfl, rfl⟩
    | true =>
      rw [open_case_ok_eq st times rng hid now hv]
      refine Or.inr (Or.inr ⟨rfl, rfl,
        ⟨⟨hid, now, "open_case",
           .openCase (clampTimes times)
             ((runDraws st ((List.range (clampTimes times)).map rng)).1.take 10)
             (runDraws st ((List.range (clampTimes times)).map rng)).1.length⟩,
         ?_⟩⟩)
      rw [appendHistory_history, runDraws_history]
  | addRarity p =>
    simp only [runOp]
    cases hv : (validateRarityRanges
        { st with rarities := st.rarities ++ [rarityOfPayload p fresh] }).1 with
    | false =>
      rw [add_rarity_fail_eq st p fresh hid now hv]
      exact Or.inl ⟨rfl, rfl⟩
    | true =>
      rw [add_rarity_ok_eq st p fresh hid now hv]
      exact Or.inr (Or.inr ⟨rfl, rfl, ⟨_, rfl⟩⟩)
  | updateRarity rid p =>
    simp only [runOp]
    cases hm : updateRarityLoop rid p st.rarities with
    | none =>
      rw [update_rarity_notfound_eq st rid p hid now hm]
      exact Or.inl ⟨rfl, rfl⟩
    | some lr =>
      cases hv : (validateRarityRanges { st with rarities := lr.1 }).1 with
      | false =>
        rw [update_rarity_fail_eq st rid p hid now lr hm hv]
        exact Or.inl ⟨rfl, rfl⟩
      | true =>
        rw [update_rarity_ok_eq st rid p hid now lr hm hv]
        exact Or.inr (Or.inr ⟨rfl, rfl, ⟨_, rfl⟩⟩)
  | deleteRarity rid =>
    simp only [runOp]
    cases href : st.items.any (fun i => i.rarity_id = rid) with
    | true =>
      rw [delete_rarity_ref_eq st rid hid now href]
      exact Or.inl ⟨rfl, rfl⟩
    | false =>
      by_cases hl : (st.rarities.filter (fun r => r.id ≠ rid)).length
          = st.rarities.length
      · unfold delete_rarity
        rw [if_neg (by simp [href]), if_pos hl]
        exact Or.inl ⟨rfl, rfl⟩
      · unfold delete_rarity
        rw [if_neg (by simp [href]), if_neg hl]
        exact Or.inr (Or.inr ⟨rfl, rfl, ⟨_, rfl⟩⟩)
  | addItem p =>
    simp only [runOp]
    cases hr : st.rarities.any (fun r => r.id = p.rarity_id) with
    | false =>
      rw [add_item_notfound_eq st p fresh hid now hr]
      exact Or.inl ⟨rfl, rfl⟩
    | true =>
      rw [add_item_ok_eq st p fresh hid now hr]
      exact Or.inr (Or.inr ⟨rfl, rfl, ⟨_, rfl⟩⟩)
  | updateItem iid p =>
    simp only [runOp]
    cases hm : updateItemLoop (fun rid => st.rarities.any (fun r => r.id = rid))
        iid p st.items with
    | notFound =>
      rw [update_item_notfound_eq st iid p hid now hm]
      exact Or.inl ⟨rfl, rfl⟩
    | badRarity =>
      rw [update_item_badrarity_eq st iid p hid now hm]
      exact Or.inl ⟨rfl, rfl⟩
    | updated l it =>
      rw [update_item_ok_eq st iid p hid now l it hm]
      exact Or.inr (Or.inr ⟨rfl, rfl, ⟨_, rfl⟩⟩)
  | deleteItem iid =>
    simp only [runOp]
    by_cases hl : (st.items.filter (fun i => i.id ≠ iid)).length
        = st.items.length
    · rw [delete_item_notfound_eq st iid hid now hl]
      exact Or.inl ⟨rfl, rfl⟩
    · rw [delete_item_ok_eq st iid hid now hl]
      exact Or.inr (Or.inr ⟨rfl, rfl, ⟨_, rfl⟩⟩)
  | adjustInventory iid delta =>
    simp only [runOp]
    cases hmem : st.items.any (fun i => i.id = iid) with
    | false =>
      unfold adjust_inventory
      rw [if_pos hmem]
      exact Or.inl ⟨rfl, rfl⟩
    | true =>
      by_cases hneg : lookupD st.inventory iid 0 + delta < 0
      · rw [adjust_inventory_fail_eq st iid delta hid now hmem hneg]
        exact Or.inl ⟨rfl, rfl⟩
      · rw [adjust_inventory_ok_eq st iid delta hid now hmem hneg]
        exact Or.inr (Or.inr ⟨rfl, rfl, ⟨_, rfl⟩⟩)
  | updateSettings p =>
    simp only [runOp]
    cases hv : (validateRarityRanges
        { st with settings := settingsOfUpdate st.settings p }).1 with
    | false =>
      rw [update_settings_fail_eq st p hid now hv]
      exact Or.inl ⟨rfl, rfl⟩
    | true =>
      rw [update_settings_ok_eq st p hid now hv]
      exact Or.inr (Or.inr ⟨rfl, rfl, ⟨_, rfl⟩⟩)
  | clearHistory =>
    exact Or.inr (Or.inl ⟨rfl, rfl, rfl⟩)
  | resetStats =>
    exact Or.inr (Or.inr ⟨rfl, rfl, ⟨_, rfl⟩⟩)

/-- C9: after any store request the history holds at most 500 entries (it
never grows past the cap), the new entry is prepended at the head (newest
first), and when an append would exceed the cap it is the oldest entry —
the last one — that is dropped. -/
theorem history_cap_spec :
    (∀ (op : Op) (fresh hid : String) (now : ℤ) (st : State),
        st.history.length ≤ 500 →
        ((runOp op fresh hid now st).2).history.length ≤ 500)
      ∧ (∀ (st : State) (hid : String) (now : ℤ) (action : String)
            (payload : Payload),
          (appendHistory st hid now action payload).history
              = (⟨hid, now, action, payload⟩ :: st.history).take 500
            ∧ (st.history.length < 500 →
                (appendHistory st hid now action payload).history
                  = ⟨hid, now, action, payload⟩ :: st.history)
            ∧ (st.history.length = 500 →
                (appendHistory st hid now action payload).history
                  = ⟨hid, now, action, payload⟩ :: st.history.dropLast)) := by
  constructor
  · intro op fresh hid now st hlen
    rcases runOp_history_shape op fresh hid now st with h | h | h
    · rw [h.2]; exact hlen
    · rw [h.2.2]; simp
    · obtain ⟨e, he⟩ := h.2.2
      rw [he]
      simp
  · intro st hid now action payload
    refine ⟨appendHistory_history st hid now action payload, ?_, ?_⟩
    · intro hlt
      rw [appendHistory_history, show (500 : ℕ) = 499 + 1 from rfl,
        List.take_succ_cons, List.take_of_length_le (by omega)]
    · intro heq
      rw [appendHistory_history, show (500 : ℕ) = 499 + 1 from rfl,
        List.take_succ_cons, List.dropLast_eq_take, heq]

/-- Witness for `history_cap_spec`: adding an item to the concrete aggregate
keeps the history within the cap. -/
theorem history_cap_spec_witness :
    ((runOp (.addItem ⟨"X", "r1", none, none, none⟩) "i2" "h1" 0
        exState).2).history.length ≤ 500 :=
  history_cap_spec.1 (.addItem ⟨"X", "r1", none, none, none⟩) "i2" "h1" 0
    exState (by decide)

/-- C5 counterexample: `clear_history` succeeds but appends no history
entry — starting from one entry it leaves zero, whereas appending exactly
one entry would leave the new entry in the list. -/
theorem clear_history_appends_nothing :
    (clear_history exStateH).1.ok = true
      ∧ exStateH.history.length = 1
      ∧ ((clear_history exStateH).2).history.length = 0 := by decide

/-- C5 (amended): every successful mutating request other than
`clear_history` appends exactly one history entry (prepended, then capped
at 500); `open_case` appends exactly one entry for the whole batch, whose
payload holds the first 10 results and the total result count;
`clear_history` empties the history and appends nothing. -/
theorem history_entry_per_op_spec :
    (∀ (op : Op) (fresh hid : String) (now : ℤ) (st : State),
        op.isClearHistory = false →
        (runOp op fresh hid now st).1.ok = true →
        ∃ e, ((runOp op fresh hid now st).2).history
          = (e :: st.history).take 500)
      ∧ (∀ st : State,
          (clear_history st).1.ok = true ∧ (clear_history st).2.history = [])
      ∧ (∀ (st : State) (times : ℤ) (rng : ℕ → ℚ × ℚ) (hid : String)
            (now : ℤ),
          (validateRarityRanges st).1 = true →
          ∃ rs, (open_case st times rng hid now).1.results = some rs
            ∧ ((open_case st times rng hid now).2).history
                = (⟨hid, now, "open_case",
                     .openCase (clampTimes times) (rs.take 10) rs.length⟩
                    :: st.history).take 500) := by
  refine ⟨?_, fun st => ⟨rfl, rfl⟩, ?_⟩
  · intro op fresh hid now st hclear hok
    rcases runOp_history_shape op fresh hid now st with h | h | h
    · rw [h.1] at hok
      exact absurd hok (by simp)
    · rw [h.2.1] at hclear
      exact absurd hclear (by simp)
    · exact h.2.2
  · intro st times rng hid now hv
    rw [open_case_ok_eq st times rng hid now hv]
    refine ⟨(runDraws st ((List.range (clampTimes times)).map rng)).1, rfl, ?_⟩
    rw [appendHistory_history, runDraws_history]

/-- Witness for `history_entry_per_op_spec`: a successful `reset_stats`
request on the concrete aggregate appends one entry. -/
theorem history_entry_per_op_spec_witness :
    ∃ e, ((runOp .resetStats "f1" "h1" 0 exState).2).history
      = (e :: exState.history).take 500 :=
  history_entry_per_op_spec.1 .resetStats "f1" "h1" 0 exState rfl (by decide)

/-- C1 counterexample: `update_settings` with `roll_min = 200` fails
validation yet the aggregate keeps the mutated settings — the attempted
change is not rolled back. -/
theorem update_settings_failure_keeps_mutation :
    (update_settings exState ⟨some 200, none, none⟩ "h1" 0).1.ok = false
      ∧ (update_settings exState ⟨some 200, none, none⟩ "h1" 0).2
          ≠ exState := by decide

/-- C1 (amended): on a failing validation `add_rarity` returns a failure
and restores the aggregate exactly (the appended rarity is popped back
off); `update_rarity` and `update_settings` return a failure without
appending history or touching any other section, but the already-applied
in-place field edits (the rarity's fields, resp. the settings) stay. -/
theorem validation_failure_state_spec :
    (∀ (st : State) (p : RarityPayload) (fresh hid : String) (now : ℤ),
        (add_rarity st p fresh hid now).1.ok = false →
        (add_rarity st p fresh hid now).2 = st)
      ∧ (∀ (st : State) (rid : String) (p : RarityUpdate) (hid : String)
            (now : ℤ),
          (update_rarity st rid p hid now).1.ok = false →
          (update_rarity st rid p hid now).2.history = st.history
            ∧ (update_rarity st rid p hid now).2.items = st.items
            ∧ (update_rarity st rid p hid now).2.inventory = st.inventory
            ∧ (update_rarity st rid p hid now).2.stats = st.stats
            ∧ (update_rarity st rid p hid now).2.settings = st.settings)
      ∧ (∀ (st : State) (p : SettingsUpdate) (hid : String) (now : ℤ),
          (update_settings st p hid now).1.ok = false →
          (update_settings st p hid now).2.history = st.history
            ∧ (update_settings st p hid now).2.rarities = st.rarities
            ∧ (update_settings st p hid now).2.items = st.items
            ∧ (update_settings st p hid now).2.inventory = st.inventory
            ∧ (update_settings st p hid now).2.stats = st.stats) := by
  refine ⟨?_, ?_, ?_⟩
  · intro st p fresh hid now hok
    cases hv : (validateRarityRanges
        { st with rarities := st.rarities ++ [rarityOfPayload p fresh] }).1 with
    | true =>
      rw [add_rarity_ok_eq st p fresh hid now hv] at hok
      exact absurd hok (by simp)
    | false =>
      rw [add_rarity_fail_eq st p fresh hid now hv]
      show { st with
        rarities := (st.rarities ++ [rarityOfPayload p fresh]).dropLast } = st
      rw [List.dropLast_concat]
  · intro st rid p hid now hok
    cases hm : updateRarityLoop rid p st.rarities with
    | none =>
      rw [update_rarity_notfound_eq st rid p hid now hm]
      exact ⟨rfl, rfl, rfl, rfl, rfl⟩
    | some lr =>
      cases hv : (validateRarityRanges { st with rarities := lr.1 }).1 with
      | true =>
        rw [update_rarity_ok_eq st rid p hid now lr hm hv] at hok
        exact absurd hok (by simp)
      | false =>
        rw [update_rarity_fail_eq st rid p hid now lr hm hv]
        exact ⟨rfl, rfl, rfl, rfl, rfl⟩
  · intro st p hid now hok
    cases hv : (validateRarityRanges
        { st with settings := settingsOfUpdate st.settings p }).1 with
    | true =>
      rw [update_settings_ok_eq st p hid now hv] at hok
      exact absurd hok (by simp)
    | false =>
      rw [update_settings_fail_eq st p hid now hv]
      exact ⟨rfl, rfl, rfl, rfl, rfl⟩

/-- Witness for `validation_failure_state_spec`: adding a rarity with
`min_roll 70 > max_roll 50` fails validation and the aggregate is exactly
restored. -/
theorem validation_failure_state_spec_witness :
    (add_rarity exState ⟨"Bad", 70, 50, none⟩ "r9" "h9" 0).2 = exState :=
  validation_failure_state_spec.1 exState ⟨"Bad", 70, 50, none⟩ "r9" "h9" 0
    (by decide)

/-- C3 counterexample: `add_item` accepts a negative weight — the call
succeeds and the catalog then contains an item of weight `-1 < 0`. -/
theorem add_item_accepts_negative_weight :
    (add_item exState ⟨"X", "r1", some (-1), none, none⟩ "i2" "h1" 0).1.ok
        = true
      ∧ ((add_item exState ⟨"X", "r1", some (-1), none, none⟩
            "i2" "h1" 0).2.items.any (fun i => decide (i.weight < 0)))
        = true := by decide

/-- C3 (amended): `add_item` and `update_item` store the supplied weight
without any non-negativity check, so a negative weight can enter the
catalog; items with non-positive weight are merely undrawable — any item
returned by the weighted pick has weight strictly greater than 0. -/
theorem weight_storage_spec :
    (∀ (st : State) (p : ItemPayload) (fresh hid : String) (now : ℤ),
        (add_item st p fresh hid now).1.ok = true →
        (add_item st p fresh hid now).2.items
          = st.items ++ [itemOfPayload p fresh])
      ∧ (∀ (hasR : String → Bool) (iid : String) (p : ItemUpdate)
            (l : List Item), ∀ (l' : List Item) (it : Item),
          updateItemLoop hasR iid p l = .updated l' it →
          ∀ w, p.weight = some w → it.weight = w)
      ∧ (∀ (items : List Item) (rid : String) (point : ℚ) (i : Item),
          pickItemByRarity items rid point = some i →
          i.weight > 0 ∧ i.rarity_id = rid ∧ i ∈ items) := by
  refine ⟨?_, ?_, ?_⟩
  · intro st p fresh hid now hok
    cases hr : st.rarities.any (fun r => r.id = p.rarity_id) with
    | false =>
      rw [add_item_notfound_eq st p fresh hid now hr] at hok
      exact absurd hok (by simp)
    | true =>
      rw [add_item_ok_eq st p fresh hid now hr]
      rfl
  · intro hasR iid p l
    induction l with
    | nil =>
      intro l' it h w hw
      exact absurd h (by simp [updateItemLoop])
    | cons i rest ih =>
      intro l' it h w hw
      unfold updateItemLoop at h
      by_cases hids : i.id = iid
      · rw [if_pos hids] at h
        cases hrid : p.rarity_id with
        | some rid =>
          simp only [hrid] at h
          by_cases hhas : hasR rid = false
          · rw [if_pos hhas] at h
            exact absurd h (by simp)
          · rw [if_neg hhas] at h
            simp only [UpdItemRes.updated.injEq] at h
            rw [← h.2]
            simp [hw]
        | none =>
          simp only [hrid] at h
          simp only [UpdItemRes.updated.injEq] at h
          rw [← h.2]
          simp [hw]
      · rw [if_neg hids] at h
        cases hrec : updateItemLoop hasR iid p rest with
        | notFound => rw [hrec] at h; exact absurd h (by simp)
        | badRarity => rw [hrec] at h; exact absurd h (by simp)
        | updated l'' it'' =>
          rw [hrec] at h
          simp only [UpdItemRes.updated.injEq] at h
          rw [← h.2]
          exact ih l'' it'' hrec w hw
  · intro items rid point i h
    obtain ⟨hi, hp⟩ := List.mem_filter.mp (pickItemByRarity_mem items rid point i h)
    simp only [decide_eq_true_eq] at hp
    exact ⟨hp.2, hp.1, hi⟩

/-- Witness for `weight_storage_spec`: the knife picked by the concrete
successful draw indeed has positive weight and belongs to the catalog. -/
theorem weight_storage_spec_witness :
    exItem.weight > 0 ∧ exItem.rarity_id = "r1" ∧ exItem ∈ exState.items :=
  weight_storage_spec.2.2 exState.items "r1" 1 exItem (by
    simp [pickItemByRarity, pickCandidates, pickLoop, exState, exItem])

/-- C4 counterexample: a durable file holding the well-formed JSON document
`null` makes startup raise — `dict.update(None)` is a `TypeError` and
line 60 catches only `JSONDecodeError` and `OSError` — so startup does not
complete for every well-formed document. -/
theorem startup_raises_on_null_document :
    loadOrCreate (.parsed .null) (fun _ => "u") = .error .typeError := rfl

/-- C4 (amended): startup completes without raising when the durable file
is missing, or unreadable, or unparsable — keeping the in-memory defaults
and seeding the fixed default catalog of 4 rarities and 4 items, one item
per rarity — and likewise for an empty JSON object; the no-raise guarantee
does not extend to every well-formed JSON document. -/
theorem startup_fallback_spec (ids : ℕ → String) :
    loadOrCreate .missing ids = .ok (seededDefaultRaw ids)
      ∧ loadOrCreate .unparsable ids = .ok (seededDefaultRaw ids)
      ∧ loadOrCreate (.parsed (.obj [])) ids = .ok (seededDefaultRaw ids)
      ∧ (∃ rs, (seededDefaultRaw ids).rarities = Json.arr rs ∧ rs.length = 4)
      ∧ (∃ its, (seededDefaultRaw ids).items = Json.arr its ∧ its.length = 4)
      ∧ (∀ k, k < 4 →
          rarityIdAt (seededDefaultRaw ids).rarities k = .ok (.str (ids k))
            ∧ itemRarityRefAt (seededDefaultRaw ids).items k
                = .ok (.str (ids k))) := by
  refine ⟨rfl, rfl, rfl, ⟨_, rfl, rfl⟩, ⟨_, rfl, rfl⟩, ?_⟩
  intro k hk
  interval_cases k <;> exact ⟨rfl, rfl⟩

/-- Witness for `startup_fallback_spec`: with concrete generated ids the
missing-file startup seeds the default catalog and the first item
references the first rarity. -/
theorem startup_fallback_spec_witness :
    loadOrCreate .missing (fun n => toString n)
        = .ok (seededDefaultRaw (fun n => toString n))
      ∧ itemRarityRefAt (seededDefaultRaw (fun n => toString n)).items 0
        = .ok (.str (toString 0)) :=
  ⟨(startup_fallback_spec (fun n => toString n)).1,
   ((startup_fallback_spec (fun n => toString n)).2.2.2.2.2 0
      (by decide)).2⟩

end CaseSim
